import Mathlib

/-!
Shallow embedding of the AI-Storyboard application core (src/App.tsx and
src/types.ts) and verification of its specification claims.

Modelling conventions, chosen to mirror the JavaScript runtime semantics of
the source rather than its TypeScript surface types:

* Optional / possibly-`undefined` fields are `Option` values (`none` =
  `undefined`).  Fields that legacy or imported JSON records may omit are
  `Option` even when the TypeScript interface declares them required
  (`Shot.settings`, the fields of `ShotSettings`, `Project.trashedShots`),
  because the migration code explicitly tests them for absence.
* A `Shot.imageVariations` that is `undefined` in a legacy record is
  modelled as `[]`: every inspection the source performs
  (`s.imageVariations || []`, `.length === 0`, `!shot.imageVariations`
  followed by assignment of `[]`) is observationally identical on the two.
* JavaScript truthiness on strings ("" is falsy) and on numbers (0 is
  falsy) is modelled explicitly by the `jsTruthyStr` / `jsOrStr` / `jsOrQ`
  helpers; `a || b` on such values is `jsOrStr` / `jsOrQ`.
* JavaScript numbers are modelled as `ℚ`: the only arithmetic the embedded
  core performs (`length * 3 / 4 - padding`) is exact in binary floating
  point for realistic lengths, so `ℚ` models it faithfully.
* `Date.now()` and `uuidv4()` are modelled as explicit parameters
  (`now : ℕ`, fresh-id strings); the browser image re-compressor
  `compressImage` is an opaque parameter `compress : String → String`
  (its failure mode returns the original payload, so it is total).
* Asynchronous collaborator calls (Gemini AI service, IndexedDB gateway)
  are modelled by passing each handler the settled outcome of its calls
  and by returning the list of collaborator calls it issued; the app is
  single-threaded, so one handler run is one atomic state transformation.
* `str.toUpperCase()` is modelled by `toUpperAscii`; the substring
  keywords the error classifier searches for are pure ASCII, so ignoring
  non-ASCII case mapping is observationally faithful.
-/

/-- JavaScript truthiness of a possibly-undefined string: `undefined` and
`""` are falsy. -/
def jsTruthyStr (o : Option String) : Bool :=
  match o with
  | none => false
  | some s => s ≠ ""

/-- JavaScript `a || b` for a possibly-undefined string `a` ("" falsy). -/
def jsOrStr (a : Option String) (b : String) : String :=
  match a with
  | none => b
  | some s => if s = "" then b else s

/-- JavaScript `a || b` for a possibly-undefined number `a` (0 falsy). -/
def jsOrQ (a : Option ℚ) (b : ℚ) : ℚ :=
  match a with
  | none => b
  | some q => if q = 0 then b else q

/-- Does `hay` start with `needle`? (character-list level). -/
def startsList : List Char → List Char → Bool
  | _, [] => true
  | [], _ :: _ => false
  | a :: as, b :: bs => a = b && startsList as bs

/-- Does `hay` contain `needle` as a contiguous substring?
Models JavaScript `hay.includes(needle)`. -/
def hasSub (hay needle : List Char) : Bool :=
  match hay with
  | [] => needle.isEmpty
  | _ :: t => startsList hay needle || hasSub t needle

/-- Models `str.toUpperCase()` restricted to ASCII (sufficient for the
ASCII keywords the error classifier searches for). -/
def toUpperAscii (s : String) : String :=
  String.mk (s.toList.map Char.toUpper)

/-- Models `hay.toUpperCase().includes(needle)` at `String` level. -/
def upperIncludes (hay needle : String) : Bool :=
  hasSub (toUpperAscii hay).toList needle.toList

/-! ## Data model (src/types.ts)

`ShotSettings` fields are drawn from closed vocabularies in the source;
they are modelled as strings because only their presence/absence and
default values matter to the verified core.  All five fields are
`Option` because imported JSON may omit them (the migrator's
`!shot.settings.shotType` check). -/

structure ShotSettings where
  cameraMovement : Option String
  shotType : Option String
  aspectRatio : Option String
  artStyle : Option String
  lighting : Option String
deriving DecidableEq, Repr

/-- One generated/edited image variation (preview + original pair).
`previewFileSize` is `Option` because the legacy migration can produce an
asset whose preview size is `undefined` (deprecated `imagePreviewUrl`
present but `imagePreviewFileSize` absent). -/
structure ImageAsset where
  id : String
  previewUrl : String
  originalUrl : String
  previewFileSize : Option ℚ
  originalFileSize : ℚ
  createdAt : ℕ
deriving DecidableEq, Repr

structure Shot where
  id : String
  shotNumber : ℕ
  description : String
  visualPrompt : String
  imageVariations : List ImageAsset
  selectedVariationId : Option String
  imagePreviewUrl : Option String
  imageOriginalUrl : Option String
  imagePreviewFileSize : Option ℚ
  imageOriginalFileSize : Option ℚ
  imageUrl : Option String
  isGeneratingImage : Bool
  isUpdatingPrompt : Bool
  settings : Option ShotSettings
deriving DecidableEq, Repr

structure Project where
  id : String
  title : String
  idea : String
  shots : List Shot
  trashedShots : Option (List Shot)
  createdAt : ℕ
  updatedAt : ℕ
  isTrashed : Bool
deriving DecidableEq, Repr

/-- `apiKeyStatus` state ('active' | 'warning' | 'error'). -/
inductive ApiKeyStatus where
  | active
  | warning
  | error
deriving DecidableEq, Repr

/-- The slice of `App`'s React state that the verified core reads and
writes. -/
structure AppState where
  projects : List Project
  selectedProjectId : Option String
  ideaInput : String
  isApiBusy : Bool
  apiThrottle : ℕ
  rateLimitCooldown : ℕ
  globalError : Option String
  apiKeyStatus : ApiKeyStatus
deriving DecidableEq, Repr

/-- One call to the external AI collaborator (geminiService). -/
inductive CollabCall where
  | breakdown (idea : String)
  | generateImage (visualPrompt : String) (settings : Option ShotSettings)
      (referenceImageUrl : Option String)
  | editImage (originalUrl : String) (instruction : String)
  | regeneratePrompt (description : String)
  | suggestions (projectIdea : String) (currentDescription : String)
deriving DecidableEq, Repr

/-- One call to the persistence gateway (services/db). -/
inductive GatewayCall where
  | saveProject (p : Project)
  | saveAllProjects (ps : List Project)
  | deleteProject (id : String)
deriving DecidableEq, Repr

/-- One row of the AI script-breakdown response. -/
structure BreakdownShot where
  shotNumber : ℕ
  description : String
  visualPrompt : String
deriving DecidableEq, Repr

/-! ## Image Asset Codec (src/App.tsx, `calculateBase64Size`,
`processAndSaveImage`) -/

/-- The padding adjustment of `calculateBase64Size`: 2 if the string ends
in `"=="`, 1 if it ends in `"="`, else 0 (expressed by matching the
reversed character list, which is exactly `endsWith`). -/
def base64Padding (s : String) : ℚ :=
  match s.toList.reverse with
  | '=' :: '=' :: _ => 2
  | '=' :: _ => 1
  | _ => 0

/-- `calculateBase64Size`: `(base64String.length * 3 / 4) - padding`. -/
def calculateBase64Size (base64String : String) : ℚ :=
  (base64String.length * 3 : ℚ) / 4 - base64Padding base64String

/-- Default `ShotSettings` used on shot creation and settings backfill. -/
def defaultShotSettings : ShotSettings :=
  { cameraMovement := some "Static"
    shotType := some "Medium Shot"
    aspectRatio := some "16:9"
    artStyle := some "Cinematic Realistic"
    lighting := some "Natural Daylight" }

/-- `processAndSaveImage`: computes both sizes and the compressed preview
and packages them as one fresh `ImageAsset`. -/
def processAndSaveImage (compress : String → String) (freshId : String)
    (now : ℕ) (base64Original : String) : ImageAsset :=
  let originalSize := calculateBase64Size base64Original
  let base64Preview := compress base64Original
  let previewSize := calculateBase64Size base64Preview
  { id := freshId
    originalUrl := base64Original
    previewUrl := base64Preview
    originalFileSize := originalSize
    previewFileSize := some previewSize
    createdAt := now }

/-! ## Change-Tracking Auto-Saver (src/App.tsx, auto-save `useEffect`) -/

/-- The dirty-project computation performed when the debounce timer
fires: with no prior snapshot every current project is dirty; otherwise a
project is dirty iff its id is absent from the snapshot or its
`updatedAt` differs from the snapshot entry found for its id. -/
def changedProjects (prevProjects : Option (List Project))
    (projects : List Project) : List Project :=
  match prevProjects with
  | none => projects
  | some prev =>
      projects.filter fun project =>
        match prev.find? (fun p => p.id = project.id) with
        | none => true
        | some old => old.updatedAt ≠ project.updatedAt

/-- The timer-fire action: one gateway upsert per dirty project, then the
snapshot is replaced with the full current sequence.  (The effect is only
armed when `projects` is non-empty; on the empty list it emits nothing
either way.) -/
def autoSaveFire (prevProjects : Option (List Project))
    (projects : List Project) : List GatewayCall × Option (List Project) :=
  ((changedProjects prevProjects projects).map GatewayCall.saveProject,
    some projects)

/-! ## Legacy Shot Migrator (src/App.tsx, `initializeData` and
`handleImportJson`) -/

/-- The `initializeData` per-shot migration of legacy LocalStorage data:
convert the deprecated single-image fields into one variation when the
variation list is empty, then unconditionally delete `imageUrl`,
`imageOriginalUrl` and `imagePreviewUrl`.  (No settings backfill on this
path.) -/
def migrateShotLegacy (compress : String → String) (freshId : String)
    (now : ℕ) (s : Shot) : Shot :=
  if (jsTruthyStr s.imageOriginalUrl || jsTruthyStr s.imageUrl)
      && s.imageVariations.length = 0 then
    let originalUrl := jsOrStr s.imageOriginalUrl (jsOrStr s.imageUrl "")
    let originalSize := jsOrQ s.imageOriginalFileSize (calculateBase64Size originalUrl)
    let previewPair : String × Option ℚ :=
      if jsTruthyStr s.imagePreviewUrl then
        (jsOrStr s.imagePreviewUrl "", s.imagePreviewFileSize)
      else
        let pv := compress originalUrl
        (pv, some (calculateBase64Size pv))
    let newVar : ImageAsset :=
      { id := freshId
        originalUrl := originalUrl
        previewUrl := previewPair.1
        originalFileSize := originalSize
        previewFileSize := previewPair.2
        createdAt := now }
    { s with imageVariations := [newVar]
             selectedVariationId := some newVar.id
             imageUrl := none
             imageOriginalUrl := none
             imagePreviewUrl := none }
  else
    { s with imageUrl := none
             imageOriginalUrl := none
             imagePreviewUrl := none }

/-- The settings backfill of the import migration: default settings when
absent, default `shotType` when `settings` exists but lacks it. -/
def backfillSettings (o : Option ShotSettings) : Option ShotSettings :=
  match o with
  | none => some defaultShotSettings
  | some st =>
      if jsTruthyStr st.shotType then some st
      else some { st with shotType := some "Medium Shot" }

/-- The `handleImportJson` per-shot migration: legacy single-image
conversion (note the condition tests `imageUrl` first here), then the
settings backfill, then deletion of `imageUrl`, `imageOriginalUrl` and
`imagePreviewUrl`. -/
def migrateShotImport (compress : String → String) (freshId : String)
    (now : ℕ) (s : Shot) : Shot :=
  let step1 :=
    if (jsTruthyStr s.imageUrl || jsTruthyStr s.imageOriginalUrl)
        && s.imageVariations.length = 0 then
      let orig := jsOrStr s.imageOriginalUrl (jsOrStr s.imageUrl "")
      let origSize := jsOrQ s.imageOriginalFileSize (calculateBase64Size orig)
      let previewPair : String × Option ℚ :=
        if jsTruthyStr s.imagePreviewUrl then
          (jsOrStr s.imagePreviewUrl "", s.imagePreviewFileSize)
        else
          let pv := compress orig
          (pv, some (calculateBase64Size pv))
      let newVar : ImageAsset :=
        { id := freshId
          originalUrl := orig
          previewUrl := previewPair.1
          originalFileSize := origSize
          previewFileSize := previewPair.2
          createdAt := now }
      { s with imageVariations := [newVar]
               selectedVariationId := some newVar.id }
    else s
  let step2 := { step1 with settings := backfillSettings step1.settings }
  { step2 with imageUrl := none
               imageOriginalUrl := none
               imagePreviewUrl := none }

/-! ## Rate/Throttle Controller (src/App.tsx, `handleApiError` and the
guards/`finally` blocks of the AI-triggering handlers) -/

/-- `handleApiError`: classify the failure message (uppercased) and apply
the corresponding state transition.  Rate-limit signals arm the 60 s
cooldown, mark the key 'warning' and clear the surfaced error;
credential signals mark the key 'error' and surface the message; any
other failure just surfaces the message. -/
def applyApiError (st : AppState) (errorMessage : String) : AppState :=
  if upperIncludes errorMessage "429"
      || upperIncludes errorMessage "RESOURCE_EXHAUSTED"
      || upperIncludes errorMessage "RATE LIMIT" then
    { st with rateLimitCooldown := 60
              apiKeyStatus := ApiKeyStatus.warning
              globalError := none }
  else if upperIncludes errorMessage "PERMISSION_DENIED"
      || upperIncludes errorMessage "API_KEY"
      || upperIncludes errorMessage "403" then
    { st with apiKeyStatus := ApiKeyStatus.error
              globalError := some errorMessage }
  else
    { st with globalError := some errorMessage }

/-- The `if (apiKeyStatus === 'warning') setApiKeyStatus('active')`
reset performed on a successful AI call. -/
def resetWarningStatus (s : ApiKeyStatus) : ApiKeyStatus :=
  if s = ApiKeyStatus.warning then ApiKeyStatus.active else s

/-! ## Project/Shot State Reducer: pure per-project transformations
(src/App.tsx handlers).  Each `...Project` function is the body of the
corresponding handler's `projects.map` restricted to the selected
project; the handler-level function maps it over the collection. -/

/-- Renumbering step shared by add/trash/restore:
`shots.map((shot, index) => ({ ...shot, shotNumber: index + 1 }))`. -/
def renumber (shots : List Shot) : List Shot :=
  shots.enum.map fun p => { p.2 with shotNumber := p.1 + 1 }

/-- The generating-flag mark/clear performed by `handleGenerateImage` and
`handleEditShotImage` at AI-call start and on failure (note: no
`updatedAt` bump). -/
def setGeneratingProject (flag : Bool) (shotId : String) (p : Project) : Project :=
  { p with shots := p.shots.map fun s =>
      if s.id = shotId then { s with isGeneratingImage := flag } else s }

def setShotGeneratingFlag (flag : Bool) (selectedProjectId shotId : String)
    (ps : List Project) : List Project :=
  ps.map fun p =>
    if p.id ≠ selectedProjectId then p else setGeneratingProject flag shotId p

/-- Success update of `handleGenerateImage`: prepend the new variations,
select the first new one, clear the flag, bump `updatedAt`. -/
def generateSuccessProject (shotId : String) (newVariations : List ImageAsset)
    (now : ℕ) (p : Project) : Project :=
  { p with updatedAt := now
           shots := p.shots.map fun s =>
             if s.id ≠ shotId then s
             else
               { s with imageVariations := newVariations ++ s.imageVariations
                        selectedVariationId := newVariations.head?.map ImageAsset.id
                        isGeneratingImage := false } }

def applyGenerateSuccess (selectedProjectId shotId : String)
    (newVariations : List ImageAsset) (now : ℕ) (ps : List Project) : List Project :=
  ps.map fun p =>
    if p.id ≠ selectedProjectId then p
    else generateSuccessProject shotId newVariations now p

/-- Success update of `handleEditShotImage`: prepend exactly one new
variation, select it, clear the flag, bump `updatedAt`. -/
def editSuccessProject (shotId : String) (newVariation : ImageAsset)
    (now : ℕ) (p : Project) : Project :=
  { p with updatedAt := now
           shots := p.shots.map fun s =>
             if s.id ≠ shotId then s
             else
               { s with imageVariations := newVariation :: s.imageVariations
                        selectedVariationId := some newVariation.id
                        isGeneratingImage := false } }

def applyEditSuccess (selectedProjectId shotId : String)
    (newVariation : ImageAsset) (now : ℕ) (ps : List Project) : List Project :=
  ps.map fun p =>
    if p.id ≠ selectedProjectId then p
    else editSuccessProject shotId newVariation now p

/-- Optimistic edit of `handleUpdateShotDescription`: apply the new
description, mark `isUpdatingPrompt`, bump `updatedAt`. -/
def descriptionEditProject (shotId newDescription : String) (now : ℕ)
    (p : Project) : Project :=
  { p with updatedAt := now
           shots := p.shots.map fun s =>
             if s.id = shotId then
               { s with description := newDescription, isUpdatingPrompt := true }
             else s }

def applyDescriptionEdit (selectedProjectId shotId newDescription : String)
    (now : ℕ) (ps : List Project) : List Project :=
  ps.map fun p =>
    if p.id ≠ selectedProjectId then p
    else descriptionEditProject shotId newDescription now p

/-- Success patch of `handleUpdateShotDescription`: overwrite
`visualPrompt` and clear the flag (note: no `updatedAt` bump). -/
def promptPatchProject (shotId newVisualPrompt : String) (p : Project) : Project :=
  { p with shots := p.shots.map fun s =>
      if s.id = shotId then
        { s with visualPrompt := newVisualPrompt, isUpdatingPrompt := false }
      else s }

def applyPromptPatch (selectedProjectId shotId newVisualPrompt : String)
    (ps : List Project) : List Project :=
  ps.map fun p =>
    if p.id ≠ selectedProjectId then p
    else promptPatchProject shotId newVisualPrompt p

/-- Failure path of `handleUpdateShotDescription`: clear the
`isUpdatingPrompt` flag only (note: no `updatedAt` bump, the optimistic
description edit is kept). -/
def clearUpdatingPromptProject (shotId : String) (p : Project) : Project :=
  { p with shots := p.shots.map fun s =>
      if s.id = shotId then { s with isUpdatingPrompt := false } else s }

def applyClearUpdatingPrompt (selectedProjectId shotId : String)
    (ps : List Project) : List Project :=
  ps.map fun p =>
    if p.id ≠ selectedProjectId then p
    else clearUpdatingPromptProject shotId p

/-- `handleSelectVariation`: pure pointer update plus `updatedAt` bump
(no membership validation is performed by the handler). -/
def selectVariationProject (shotId variationId : String) (now : ℕ)
    (p : Project) : Project :=
  { p with updatedAt := now
           shots := p.shots.map fun s =>
             if s.id = shotId then { s with selectedVariationId := some variationId }
             else s }

def handleSelectVariation (selectedProjectId shotId variationId : String)
    (now : ℕ) (ps : List Project) : List Project :=
  ps.map fun p =>
    if p.id ≠ selectedProjectId then p
    else selectVariationProject shotId variationId now p

/-- `handleDeleteProject` (soft delete): set `isTrashed`, bump. -/
def softDeleteProject (id : String) (now : ℕ) (ps : List Project) : List Project :=
  ps.map fun p =>
    if p.id = id then { p with isTrashed := true, updatedAt := now } else p

/-- `handleRestoreProject`: clear `isTrashed`, bump. -/
def restoreProject (id : String) (now : ℕ) (ps : List Project) : List Project :=
  ps.map fun p =>
    if p.id = id then { p with isTrashed := false, updatedAt := now } else p

/-- `handleSaveProjectInfo`: overwrite title and idea, bump. -/
def saveProjectInfoProject (editedTitle editedIdea : String) (now : ℕ)
    (p : Project) : Project :=
  { p with title := editedTitle, idea := editedIdea, updatedAt := now }

def handleSaveProjectInfo (selectedProjectId editedTitle editedIdea : String)
    (now : ℕ) (ps : List Project) : List Project :=
  ps.map fun p =>
    if p.id = selectedProjectId then saveProjectInfoProject editedTitle editedIdea now p
    else p

/-- `handleUpdateVisualPrompt`: overwrite the prompt, bump. -/
def updateVisualPromptProject (shotId newPrompt : String) (now : ℕ)
    (p : Project) : Project :=
  { p with updatedAt := now
           shots := p.shots.map fun s =>
             if s.id = shotId then { s with visualPrompt := newPrompt } else s }

/-- `handleUpdateShotSettings`: JS object-spread merge
`{ ...s.settings, ...newSettings }` of a partial settings patch, bump. -/
def mergeSettings (old : Option ShotSettings) (patch : ShotSettings) : ShotSettings :=
  let base : ShotSettings := (old.getD
    { cameraMovement := none, shotType := none, aspectRatio := none,
      artStyle := none, lighting := none })
  { cameraMovement := patch.cameraMovement.orElse fun _ => base.cameraMovement
    shotType := patch.shotType.orElse fun _ => base.shotType
    aspectRatio := patch.aspectRatio.orElse fun _ => base.aspectRatio
    artStyle := patch.artStyle.orElse fun _ => base.artStyle
    lighting := patch.lighting.orElse fun _ => base.lighting }

def updateShotSettingsProject (shotId : String) (newSettings : ShotSettings)
    (now : ℕ) (p : Project) : Project :=
  { p with updatedAt := now
           shots := p.shots.map fun s =>
             if s.id = shotId then
               { s with settings := some (mergeSettings s.settings newSettings) }
             else s }

/-- `handleAddShotAfter` restricted to the selected project: insert a
fresh placeholder shot after the given one and renumber; no-op when the
anchor shot is not found (`findIndex === -1`). -/
def addShotAfterProject (previousShotId freshId : String) (now : ℕ)
    (project : Project) : Project :=
  match project.shots.findIdx? (fun s => s.id = previousShotId) with
  | none => project
  | some shotIndex =>
      let newShot : Shot :=
        { id := freshId
          shotNumber := 0
          description := "Mô tả cảnh quay mới."
          visualPrompt := "A new scene"
          imageVariations := []
          selectedVariationId := none
          imagePreviewUrl := none
          imageOriginalUrl := none
          imagePreviewFileSize := none
          imageOriginalFileSize := none
          imageUrl := none
          isGeneratingImage := false
          isUpdatingPrompt := false
          settings := some defaultShotSettings }
      let newShots :=
        project.shots.take (shotIndex + 1) ++ newShot :: project.shots.drop (shotIndex + 1)
      { project with shots := renumber newShots, updatedAt := now }

def handleAddShotAfter (selectedProjectId previousShotId freshId : String)
    (now : ℕ) (ps : List Project) : List Project :=
  ps.map fun project =>
    if project.id ≠ selectedProjectId then project
    else addShotAfterProject previousShotId freshId now project

/-- `handleConfirmDeleteShot` restricted to the selected project: move
the shot to `trashedShots` and renumber the remaining active shots. -/
def trashShotProject (shotId : String) (now : ℕ) (project : Project) : Project :=
  match project.shots.find? (fun s => s.id = shotId) with
  | none => project
  | some shotToTrash =>
      let remainingShots := project.shots.filter fun s => s.id ≠ shotId
      { project with
          shots := renumber remainingShots
          trashedShots := some ((project.trashedShots.getD []) ++ [shotToTrash])
          updatedAt := now }

def handleConfirmDeleteShot (selectedProjectId shotId : String) (now : ℕ)
    (ps : List Project) : List Project :=
  ps.map fun project =>
    if project.id ≠ selectedProjectId then project
    else trashShotProject shotId now project

/-- `handleRestoreShot` restricted to the selected project: move the shot
back from `trashedShots`, stable-sort by original `shotNumber`
(JavaScript `Array.prototype.sort` is stable) and renumber. -/
def restoreShotProject (shotId : String) (now : ℕ) (project : Project) : Project :=
  match (project.trashedShots.getD []).find? (fun s => s.id = shotId) with
  | none => project
  | some shotToRestore =>
      let updatedTrashedShots :=
        (project.trashedShots.getD []).filter fun s => s.id ≠ shotId
      let restoredShotsList :=
        (project.shots ++ [shotToRestore]).mergeSort fun a b =>
          a.shotNumber ≤ b.shotNumber
      { project with
          shots := renumber restoredShotsList
          trashedShots := some updatedTrashedShots
          updatedAt := now }

def handleRestoreShot (selectedProjectId shotId : String) (now : ℕ)
    (ps : List Project) : List Project :=
  ps.map fun project =>
    if project.id ≠ selectedProjectId then project
    else restoreShotProject shotId now project

/-- `handlePermanentlyDeleteShot` (on confirm): remove from
`trashedShots` only; no renumbering of active shots. -/
def permDeleteShotProject (shotId : String) (now : ℕ) (project : Project) : Project :=
  { project with
      trashedShots := some ((project.trashedShots.getD []).filter fun s => s.id ≠ shotId)
      updatedAt := now }

/-- `handleEmptyTrash` (shot trash, on confirm): clear `trashedShots`. -/
def emptyShotTrashProject (now : ℕ) (project : Project) : Project :=
  { project with trashedShots := some [], updatedAt := now }

/-! ## AI-triggering handlers (src/App.tsx).  Each handler takes the
settled outcome of its collaborator call(s) as a parameter and returns
the new state together with the collaborator calls it issued.  A guard
failure returns the state unchanged and issues no call. -/

/-- `handleCreateProject`: guarded by a non-blank idea, the busy flag and
the proactive throttle (the rate-limit cooldown is not checked here); on
breakdown success prepends a new project and selects it; always
re-arms the 3 s throttle after the call completes. -/
def handleCreateProject (st : AppState)
    (outcome : Except String (List BreakdownShot))
    (shotIdAt : ℕ → String) (projectId : String) (now : ℕ) :
    AppState × List CollabCall :=
  if st.ideaInput.trim = "" || st.isApiBusy || st.apiThrottle > 0 then (st, [])
  else
    let st1 := { st with isApiBusy := true, globalError := none }
    let call := CollabCall.breakdown st.ideaInput
    match outcome with
    | Except.error msg =>
        let st2 := applyApiError st1 msg
        ({ st2 with isApiBusy := false, apiThrottle := 3 }, [call])
    | Except.ok shotsData =>
        let newShots : List Shot := shotsData.enum.map fun q =>
          { id := shotIdAt q.1
            shotNumber := q.2.shotNumber
            description := q.2.description
            visualPrompt := q.2.visualPrompt
            imageVariations := []
            selectedVariationId := none
            imagePreviewUrl := none
            imageOriginalUrl := none
            imagePreviewFileSize := none
            imageOriginalFileSize := none
            imageUrl := none
            isGeneratingImage := false
            isUpdatingPrompt := false
            settings := some defaultShotSettings }
        let newProject : Project :=
          { id := projectId
            title := st.ideaInput.take 30
              ++ (if 30 < st.ideaInput.length then "..." else "")
            idea := st.ideaInput
            shots := newShots
            trashedShots := some []
            createdAt := now
            updatedAt := now
            isTrashed := false }
        let st2 := { st1 with
          projects := newProject :: st1.projects
          selectedProjectId := some newProject.id
          ideaInput := ""
          apiKeyStatus := resetWarningStatus st1.apiKeyStatus }
        ({ st2 with isApiBusy := false, apiThrottle := 3 }, [call])

/-- The reference-image resolution of `handleGenerateImage`: explicit
custom payload first, else the selected variation's original payload of
the designated reference shot. -/
def resolveReferenceImage (project : Project)
    (referenceShotId customReferenceBase64 : Option String) : Option String :=
  if jsTruthyStr customReferenceBase64 then customReferenceBase64
  else
    match referenceShotId with
    | none => none
    | some rid =>
        if rid = "" then none
        else
          match project.shots.find? (fun s => s.id = rid) with
          | none => none
          | some refShot =>
              match refShot.selectedVariationId with
              | none => none
              | some svid =>
                  if svid = "" then none
                  else
                    (refShot.imageVariations.find? (fun v => v.id = svid)).map
                      ImageAsset.originalUrl

/-- The fixed message thrown by `handleGenerateImage` when both
generation attempts fail. -/
def generateFailMessage : String := "Không thể tạo được ảnh nào."

/-- `handleGenerateImage`: two concurrent generation attempts
(`Promise.allSettled`, outcomes `res1`, `res2`; `none` = rejected);
collects the fulfilled ones, throws when none succeeded, else processes
each success into a variation (fresh ids `id1`, `id2` in order),
prepends them and selects the first new one. -/
def handleGenerateImage (st : AppState) (shotId : String)
    (referenceShotId customReferenceBase64 : Option String)
    (res1 res2 : Option String) (id1 id2 : String)
    (compress : String → String) (now : ℕ) : AppState × List CollabCall :=
  match st.selectedProjectId with
  | none => (st, [])
  | some pid =>
    if st.isApiBusy || st.apiThrottle > 0 then (st, [])
    else
      match st.projects.find? (fun p => p.id = pid) with
      | none => (st, [])
      | some project =>
        match project.shots.find? (fun s => s.id = shotId) with
        | none => (st, [])
        | some shot =>
          let referenceImageUrl :=
            resolveReferenceImage project referenceShotId customReferenceBase64
          let calls :=
            [CollabCall.generateImage shot.visualPrompt shot.settings referenceImageUrl,
             CollabCall.generateImage shot.visualPrompt shot.settings referenceImageUrl]
          let st1 := { st with
            globalError := none
            isApiBusy := true
            projects := setShotGeneratingFlag true pid shotId st.projects }
          let successfulImages := res1.toList ++ res2.toList
          match successfulImages with
          | [] =>
              let st2 := applyApiError st1 generateFailMessage
              let st3 := { st2 with
                projects := setShotGeneratingFlag false pid shotId st2.projects }
              ({ st3 with isApiBusy := false, apiThrottle := 3 }, calls)
          | _ :: _ =>
              let newVariations := (successfulImages.zip [id1, id2]).map fun q =>
                processAndSaveImage compress q.2 now q.1
              let st2 := { st1 with
                projects := applyGenerateSuccess pid shotId newVariations now st1.projects
                apiKeyStatus := resetWarningStatus st1.apiKeyStatus }
              ({ st2 with isApiBusy := false, apiThrottle := 3 }, calls)

/-- `handleEditShotImage`: requires a (truthy) selected variation that is
a member of the shot's variations; on success prepends exactly one new
variation and selects it; on failure clears the generating flag only. -/
def handleEditShotImage (st : AppState) (shotId instruction : String)
    (outcome : Except String String) (freshId : String)
    (compress : String → String) (now : ℕ) : AppState × List CollabCall :=
  match st.selectedProjectId with
  | none => (st, [])
  | some pid =>
    if st.isApiBusy || st.apiThrottle > 0 then (st, [])
    else
      match st.projects.find? (fun p => p.id = pid) with
      | none => (st, [])
      | some project =>
        match project.shots.find? (fun s => s.id = shotId) with
        | none => (st, [])
        | some shot =>
          if jsTruthyStr shot.selectedVariationId = false then (st, [])
          else
            match shot.imageVariations.find?
                (fun v => v.id = shot.selectedVariationId.getD "") with
            | none => (st, [])
            | some currentVariation =>
              let call := CollabCall.editImage currentVariation.originalUrl instruction
              let st1 := { st with
                globalError := none
                isApiBusy := true
                projects := setShotGeneratingFlag true pid shotId st.projects }
              match outcome with
              | Except.error msg =>
                  let st2 := applyApiError st1 msg
                  let st3 := { st2 with
                    projects := setShotGeneratingFlag false pid shotId st2.projects }
                  ({ st3 with isApiBusy := false, apiThrottle := 3 }, [call])
              | Except.ok editedImageBase64 =>
                  let newVariation :=
                    processAndSaveImage compress freshId now editedImageBase64
                  let st2 := { st1 with
                    projects := applyEditSuccess pid shotId newVariation now st1.projects
                    apiKeyStatus := resetWarningStatus st1.apiKeyStatus }
                  ({ st2 with isApiBusy := false, apiThrottle := 3 }, [call])

/-- `handleUpdateShotDescription`: applies the description immediately
(optimistic) and marks `isUpdatingPrompt`; on success overwrites
`visualPrompt` (without bumping `updatedAt`); on failure keeps the edit
and clears the flag. -/
def handleUpdateShotDescription (st : AppState) (shotId newDescription : String)
    (outcome : Except String String) (now : ℕ) : AppState × List CollabCall :=
  match st.selectedProjectId with
  | none => (st, [])
  | some pid =>
    if st.isApiBusy || st.apiThrottle > 0 then (st, [])
    else
      let st1 := { st with
        globalError := none
        isApiBusy := true
        projects := applyDescriptionEdit pid shotId newDescription now st.projects }
      let call := CollabCall.regeneratePrompt newDescription
      match outcome with
      | Except.ok newVisualPrompt =>
          let st2 := { st1 with
            projects := applyPromptPatch pid shotId newVisualPrompt st1.projects
            apiKeyStatus := resetWarningStatus st1.apiKeyStatus }
          ({ st2 with isApiBusy := false, apiThrottle := 3 }, [call])
      | Except.error msg =>
          let st2 := applyApiError st1 msg
          let st3 := { st2 with
            projects := applyClearUpdatingPrompt pid shotId st2.projects }
          ({ st3 with isApiBusy := false, apiThrottle := 3 }, [call])

/-- `handleGetSuggestionsForShot`: issues the suggestions call; mutates
no project state; on failure classifies the error; always re-arms the
throttle. -/
def handleGetSuggestionsForShot (st : AppState)
    (projectIdea currentDescription : String)
    (outcome : Except String (List String)) : AppState × List CollabCall :=
  if st.isApiBusy || st.apiThrottle > 0 then (st, [])
  else
    let st1 := { st with globalError := none, isApiBusy := true }
    let call := CollabCall.suggestions projectIdea currentDescription
    match outcome with
    | Except.ok _ => ({ st1 with isApiBusy := false, apiThrottle := 3 }, [call])
    | Except.error msg =>
        let st2 := applyApiError st1 msg
        ({ st2 with isApiBusy := false, apiThrottle := 3 }, [call])

/-! ## Import (src/App.tsx, `handleImportJson`) -/

/-- A parsed backup file (`JSON.parse` result cast to `Project`): `id`
and `shots` may be missing, which the validation checks. -/
structure ParsedProject where
  id : Option String
  title : String
  idea : String
  shots : Option (List Shot)
  trashedShots : Option (List Shot)
  createdAt : ℕ
  updatedAt : ℕ
  isTrashed : Bool
deriving DecidableEq, Repr

/-- The message surfaced when an import fails validation. -/
def importFailMessage : String := "File bị lỗi hoặc không đúng định dạng."

/-- `handleImportJson` (after `JSON.parse` succeeded): rejects input with
a falsy `id` or missing `shots` (the thrown error is caught and surfaced,
projects untouched); otherwise migrates every shot, overwrites the id
with a fresh one, appends the "(Imported)" title marker and prepends the
project to the collection. -/
def handleImportJson (st : AppState) (file : ParsedProject)
    (freshProjectId : String) (shotIdAt : ℕ → String)
    (compress : String → String) (now : ℕ) : AppState :=
  if jsTruthyStr file.id = false || file.shots.isNone then
    { st with globalError := some importFailMessage }
  else
    let migratedShots := (file.shots.getD []).enum.map fun q =>
      migrateShotImport compress (shotIdAt q.1) now q.2
    let newProject : Project :=
      { id := freshProjectId
        title := file.title ++ " (Imported)"
        idea := file.idea
        shots := migratedShots
        trashedShots := file.trashedShots
        createdAt := file.createdAt
        updatedAt := file.updatedAt
        isTrashed := file.isTrashed }
    { st with projects := newProject :: st.projects, globalError := none }

/-! ## Predicates used by the claims -/

/-- Contiguous 1-based numbering: every shot's `shotNumber` equals its
position + 1. -/
def wellNumbered (shots : List Shot) : Prop :=
  ∀ i (h : i < shots.length), (shots.get ⟨i, h⟩).shotNumber = i + 1

/-- `selectedVariationId`, if set, references a member of
`imageVariations`. -/
def selInvShot (s : Shot) : Prop :=
  ∀ vid, s.selectedVariationId = some vid → ∃ v ∈ s.imageVariations, v.id = vid

/-- The selected-variation invariant over every active shot of every
project in the collection. -/
def selInvProjects (ps : List Project) : Prop :=
  ∀ p ∈ ps, ∀ s ∈ p.shots, selInvShot s

/-! ## Concrete sample data for witnesses and counterexamples -/

def sampleAsset : ImageAsset :=
  { id := "v1", previewUrl := "pv", originalUrl := "ov",
    previewFileSize := some 1, originalFileSize := 2, createdAt := 0 }

def emptyShot : Shot :=
  { id := "s1", shotNumber := 1, description := "d", visualPrompt := "vp",
    imageVariations := [], selectedVariationId := none,
    imagePreviewUrl := none, imageOriginalUrl := none,
    imagePreviewFileSize := none, imageOriginalFileSize := none,
    imageUrl := none, isGeneratingImage := false, isUpdatingPrompt := false,
    settings := some defaultShotSettings }

/-- A shot that already has a variation (selected none). -/
def shotWithVar : Shot :=
  { emptyShot with imageVariations := [sampleAsset] }

/-- A shot with a non-empty variation list that still carries a
deprecated `imageUrl`. -/
def c4shot : Shot :=
  { emptyShot with imageVariations := [sampleAsset],
                   selectedVariationId := some "v1",
                   imageUrl := some "LEGACY" }

/-- A legacy-shape shot: no variations, deprecated `imageUrl` plus both
deprecated size fields, no settings. -/
def c5shot : Shot :=
  { emptyShot with imageUrl := some "QUJD",
                   imagePreviewFileSize := some 7,
                   imageOriginalFileSize := some 9,
                   settings := none }

def sampleProject : Project :=
  { id := "p1", title := "t", idea := "i", shots := [emptyShot],
    trashedShots := some [{ emptyShot with id := "s2" }],
    createdAt := 0, updatedAt := 5, isTrashed := false }

/-- A project whose only shot owns one variation. -/
def projectWithVar : Project :=
  { sampleProject with shots := [shotWithVar] }

def sampleState : AppState :=
  { projects := [sampleProject], selectedProjectId := some "p1",
    ideaInput := "một ý tưởng phim", isApiBusy := false, apiThrottle := 0,
    rateLimitCooldown := 0, globalError := none,
    apiKeyStatus := ApiKeyStatus.active }

/-- `sampleState` while the rate-limit cooldown is counting down. -/
def cooldownState : AppState :=
  { sampleState with rateLimitCooldown := 60 }

/-- A parsed backup file in the legacy single-image shape. -/
def sampleImportFile : ParsedProject :=
  { id := some "old-id", title := "T", idea := "I",
    shots := some [c5shot], trashedShots := none,
    createdAt := 0, updatedAt := 0, isTrashed := false }

/-! ## Helper lemmas -/

/-- `find?` over a map by a key-preserving function. -/
theorem find?_map_key {α : Type} (f : α → α) (key : α → String)
    (hf : ∀ a, key (f a) = key a) (l : List α) (k : String) :
    (l.map f).find? (fun a => key a = k) = (l.find? (fun a => key a = k)).map f := by
  induction l with
  | nil => rfl
  | cons a t ih =>
    by_cases h : key a = k
    · simp [List.find?_cons, hf, h]
    · simp only [List.map_cons, List.find?_cons, hf a, h]
      simpa using ih

/-- In a collection with no duplicate ids, `find?` by the id of a member
returns that member. -/
theorem find?_id_of_mem (S : List Project) (hnd : (S.map Project.id).Nodup)
    (q : Project) (hq : q ∈ S) :
    S.find? (fun r => r.id = q.id) = some q := by
  induction S with
  | nil => cases hq
  | cons a T ih =>
    have hnd' : (∀ x ∈ T, ¬x.id = a.id) ∧ (T.map Project.id).Nodup := by
      simpa using hnd
    rcases List.mem_cons.mp hq with rfl | hq2
    · simp [List.find?_cons]
    · have ha : ¬(a.id = q.id) := fun h => hnd'.1 q hq2 h.symm
      simp only [List.find?_cons, decide_eq_false ha]
      exact ih hnd'.2 hq2

/-- In a collection with no duplicate ids, two members with the same id
are equal. -/
theorem eq_of_mem_of_id_eq (S : List Project) (hnd : (S.map Project.id).Nodup)
    (q r : Project) (hq : q ∈ S) (hr : r ∈ S) (h : q.id = r.id) : q = r := by
  have h1 := find?_id_of_mem S hnd q hq
  have h2 := find?_id_of_mem S hnd r hr
  rw [h] at h1
  rw [h1] at h2
  exact Option.some_injective _ h2

/-- In a collection with no duplicate ids, filtering by the id of a
member yields exactly that member. -/
theorem filter_id_of_mem (S : List Project) (hnd : (S.map Project.id).Nodup)
    (P : Project) (hP : P ∈ S) :
    S.filter (fun q => q.id = P.id) = [P] := by
  induction S with
  | nil => cases hP
  | cons a T ih =>
    have hnd' : (∀ x ∈ T, ¬x.id = a.id) ∧ (T.map Project.id).Nodup := by
      simpa using hnd
    by_cases h : a.id = P.id
    · have haP : a = P := by
        rcases List.mem_cons.mp hP with rfl | hP2
        · rfl
        · exact absurd (hnd'.1 P hP2) (by simp [h])
      have hT : T.filter (fun q => q.id = P.id) = [] := by
        apply List.filter_eq_nil_iff.mpr
        intro q hqT
        simp only [decide_eq_true_eq]
        intro hbad
        exact hnd'.1 q hqT (by rw [hbad, ← h])
      simp [List.filter_cons, h, hT, haP]
    · have hP2 : P ∈ T := by
        rcases List.mem_cons.mp hP with rfl | hP2
        · exact absurd rfl h
        · exact hP2
      simp only [List.filter_cons, decide_eq_false h]
      exact ih hnd'.2 hP2

/-- Renumbering always yields the contiguous 1-based invariant. -/
theorem renumber_wellNumbered (l : List Shot) : wellNumbered (renumber l) := by
  intro i h
  simp [renumber] at h ⊢

/-! ## Claim theorems -/

/-- C10: `calculateBase64Size` returns ⌈encodedLength × 3/4⌉ minus the
padding adjustment (2 for a `"=="` tail, 1 for `"="`, else 0) on every
properly padded base64 encoding (length divisible by 4), and it
round-trips the known encoded-length/byte-size pairs for 0, 1 and 2
padding characters. -/
theorem claim_C10_base64_size :
    (∀ s : String, 4 ∣ s.length →
      calculateBase64Size s
        = ((⌈(s.length * 3 : ℚ) / 4⌉ : ℤ) : ℚ) - base64Padding s) ∧
    calculateBase64Size "QUJD" = 3 ∧
    calculateBase64Size "QUI=" = 2 ∧
    calculateBase64Size "QQ==" = 1 := by
  refine ⟨fun s hdvd => ?_, ?_, ?_, ?_⟩
  · rw [calculateBase64Size]
    obtain ⟨k, hk⟩ := hdvd
    rw [hk]
    have h1 : (((4 * k : ℕ) : ℚ) * 3) / 4 = ((3 * k : ℤ) : ℚ) := by
      push_cast
      ring
    rw [h1, Int.ceil_intCast]
  · rw [calculateBase64Size, show base64Padding "QUJD" = 0 from rfl,
      show ("QUJD".length) = 4 from rfl]
    norm_num
  · rw [calculateBase64Size, show base64Padding "QUI=" = 1 from rfl,
      show ("QUI=".length) = 4 from rfl]
    norm_num
  · rw [calculateBase64Size, show base64Padding "QQ==" = 2 from rfl,
      show ("QQ==".length) = 4 from rfl]
    norm_num

/-- Witness for C10: the general formula applied to the concrete
encoding `"QQ=="`. -/
theorem claim_C10_base64_size_witness :
    calculateBase64Size "QQ=="
      = ((⌈(("QQ==".length) * 3 : ℚ) / 4⌉ : ℤ) : ℚ) - base64Padding "QQ==" :=
  claim_C10_base64_size.1 "QQ==" (by decide)

/-- C3: after add-shot-after, trash-shot or restore-shot takes effect on
a project, every shot of the resulting active list has
`shotNumber = index + 1`. -/
theorem claim_C3_renumber_invariant :
    (∀ previousShotId freshId now (project : Project),
      (project.shots.findIdx? (fun s => s.id = previousShotId)).isSome →
      wellNumbered (addShotAfterProject previousShotId freshId now project).shots) ∧
    (∀ shotId now (project : Project),
      (project.shots.find? (fun s => s.id = shotId)).isSome →
      wellNumbered (trashShotProject shotId now project).shots) ∧
    (∀ shotId now (project : Project),
      ((project.trashedShots.getD []).find? (fun s => s.id = shotId)).isSome →
      wellNumbered (restoreShotProject shotId now project).shots) := by
  refine ⟨fun prevId fid now project h => ?_,
          fun shotId now project h => ?_,
          fun shotId now project h => ?_⟩
  · rw [addShotAfterProject]
    obtain ⟨idx, hidx⟩ := Option.isSome_iff_exists.mp h
    rw [hidx]
    exact renumber_wellNumbered _
  · rw [trashShotProject]
    obtain ⟨sh, hsh⟩ := Option.isSome_iff_exists.mp h
    rw [hsh]
    exact renumber_wellNumbered _
  · rw [restoreShotProject]
    obtain ⟨sh, hsh⟩ := Option.isSome_iff_exists.mp h
    rw [hsh]
    exact renumber_wellNumbered _

/-- Witness for C3: the three operations applied to a concrete project
holding active shot "s1" and trashed shot "s2". -/
theorem claim_C3_renumber_invariant_witness :
    wellNumbered (addShotAfterProject "s1" "f1" 9 sampleProject).shots ∧
    wellNumbered (trashShotProject "s1" 9 sampleProject).shots ∧
    wellNumbered (restoreShotProject "s2" 9 sampleProject).shots :=
  ⟨claim_C3_renumber_invariant.1 "s1" "f1" 9 sampleProject (by decide),
   claim_C3_renumber_invariant.2.1 "s1" 9 sampleProject (by decide),
   claim_C3_renumber_invariant.2.2 "s2" 9 sampleProject (by decide)⟩

/-- C1: the set of projects the Auto-Saver persists when the debounce
timer fires is exact: with no prior snapshot every current project is
upserted once (so 3 projects give 3 upserts); with a snapshot, a project
is upserted iff its id is absent from the snapshot or its `updatedAt`
differs from the snapshot's entry with the same id; and when the new
state differs from the snapshot only in one project's `updatedAt`,
exactly that project is upserted. -/
theorem claim_C1_autosave_dirty_exact :
    (∀ cur : List Project,
      (autoSaveFire none cur).1 = cur.map GatewayCall.saveProject) ∧
    (∀ (snap cur : List Project) (p : Project),
      (snap.map Project.id).Nodup →
      (p ∈ changedProjects (some snap) cur ↔
        p ∈ cur ∧ ((∀ q ∈ snap, q.id ≠ p.id) ∨
          (∃ q ∈ snap, q.id = p.id ∧ q.updatedAt ≠ p.updatedAt)))) ∧
    (∀ (snap : List Project) (P : Project) (t : ℕ),
      (snap.map Project.id).Nodup → P ∈ snap → t ≠ P.updatedAt →
      (autoSaveFire (some snap)
          (snap.map fun q =>
            if q.id = P.id then { q with updatedAt := t } else q)).1
        = [GatewayCall.saveProject { P with updatedAt := t }]) := by
  refine ⟨fun cur => rfl, fun snap cur p hnd => ?_, fun snap P t hnd hP ht => ?_⟩
  · rw [changedProjects, List.mem_filter]
    constructor
    · rintro ⟨hmem, hpred⟩
      refine ⟨hmem, ?_⟩
      rcases hfind : snap.find? (fun q => q.id = p.id) with _ | old
      · left
        intro q hq h
        have := List.find?_eq_none.mp hfind q hq
        simp [h] at this
      · right
        refine ⟨old, List.mem_of_find?_eq_some hfind, ?_, ?_⟩
        · simpa using List.find?_some hfind
        · rw [hfind] at hpred
          simpa using hpred
    · rintro ⟨hmem, habs | ⟨q, hq, hid, hne⟩⟩
      · refine ⟨hmem, ?_⟩
        have hfind : snap.find? (fun q => q.id = p.id) = none :=
          List.find?_eq_none.mpr fun q hq => by simpa using habs q hq
        rw [hfind]
      · refine ⟨hmem, ?_⟩
        have hfind : snap.find? (fun r => r.id = p.id) = some q := by
          have := find?_id_of_mem snap hnd q hq
          rw [hid] at this
          exact this
        rw [hfind]
        simpa using hne
  · show (changedProjects (some snap) _).map GatewayCall.saveProject = _
    have hstep : changedProjects (some snap)
        (snap.map fun q => if q.id = P.id then { q with updatedAt := t } else q)
        = [{ P with updatedAt := t }] := by
      rw [changedProjects, List.filter_map]
      have hcong : snap.filter
            ((fun project =>
              match snap.find? (fun p => p.id = project.id) with
              | none => true
              | some old => decide (old.updatedAt ≠ project.updatedAt)) ∘
              (fun q => if q.id = P.id then { q with updatedAt := t } else q))
          = snap.filter (fun q => q.id = P.id) := by
        apply List.filter_congr
        intro q hq
        have hid : (if q.id = P.id then { q with updatedAt := t } else q).id = q.id := by
          by_cases h : q.id = P.id <;> simp [h]
        simp only [Function.comp_apply, hid]
        rw [find?_id_of_mem snap hnd q hq]
        by_cases h : q.id = P.id
        · have hqP : q = P := eq_of_mem_of_id_eq snap hnd q P hq hP h
          subst hqP
          simp [h, Ne.symm ht]
        · simp [h]
      rw [hcong, filter_id_of_mem snap hnd P hP]
      simp
    rw [hstep]
    rfl

/-- Witness for C1: two concrete projects, one bumped timestamp, exactly
one upsert for the bumped project. -/
theorem claim_C1_autosave_dirty_exact_witness :
    (autoSaveFire (some [sampleProject, { sampleProject with id := "p2" }])
        ([sampleProject, { sampleProject with id := "p2" }].map fun q =>
          if q.id = sampleProject.id then { q with updatedAt := 9 } else q)).1
      = [GatewayCall.saveProject { sampleProject with updatedAt := 9 }] :=
  claim_C1_autosave_dirty_exact.2.2
    [sampleProject, { sampleProject with id := "p2" }] sampleProject 9
    (by decide) (by decide) (by decide)

/-- Counterexample to C4 as stated: a shot whose `imageVariations` is
already non-empty but which still carries a deprecated `imageUrl` is NOT
returned unchanged by the legacy migration — the deprecated field is
removed. -/
theorem claim_C4_counterexample :
    migrateShotLegacy (fun x => x) "fresh" 0 c4shot ≠ c4shot := by decide

/-- C4 (amended): migrating a shot with non-empty `imageVariations`
never touches the variations, the selection or any other content field,
but it does unconditionally strip the deprecated url fields `imageUrl`,
`imageOriginalUrl` and `imagePreviewUrl` (and the import path backfills
missing `settings`/`shotType`); the shot is returned entirely unchanged
exactly when those deprecated url fields are already absent (and, on
the import path, `settings` is present with a truthy `shotType`). -/
theorem claim_C4_migrator_idempotence_amended :
    (∀ compress freshId now (s : Shot), s.imageVariations ≠ [] →
      migrateShotLegacy compress freshId now s =
        { s with imageUrl := none, imageOriginalUrl := none,
                 imagePreviewUrl := none }) ∧
    (∀ compress freshId now (s : Shot), s.imageVariations ≠ [] →
      migrateShotImport compress freshId now s =
        { s with settings := backfillSettings s.settings,
                 imageUrl := none, imageOriginalUrl := none,
                 imagePreviewUrl := none }) ∧
    (∀ compress freshId now (s : Shot), s.imageVariations ≠ [] →
      s.imageUrl = none → s.imageOriginalUrl = none → s.imagePreviewUrl = none →
      migrateShotLegacy compress freshId now s = s) ∧
    (∀ compress freshId now (s : Shot) (st0 : ShotSettings),
      s.imageVariations ≠ [] →
      s.imageUrl = none → s.imageOriginalUrl = none → s.imagePreviewUrl = none →
      s.settings = some st0 → jsTruthyStr st0.shotType = true →
      migrateShotImport compress freshId now s = s) := by
  have hlen : ∀ (s : Shot), s.imageVariations ≠ [] →
      (s.imageVariations.length = 0) = False := by
    intro s h
    simp [List.length_eq_zero, h]
  refine ⟨fun compress freshId now s h => ?_,
          fun compress freshId now s h => ?_,
          fun compress freshId now s h h1 h2 h3 => ?_,
          fun compress freshId now s st0 h h1 h2 h3 h4 h5 => ?_⟩
  · rw [migrateShotLegacy]
    simp [hlen s h]
  · rw [migrateShotImport]
    simp [hlen s h]
  · rw [migrateShotLegacy]
    simp only [hlen s h, Bool.and_eq_true, decide_eq_true_eq, and_false, if_false]
    cases s
    simp_all
  · rw [migrateShotImport]
    simp only [hlen s h, Bool.and_eq_true, decide_eq_true_eq, and_false, if_false]
    have hbf : backfillSettings s.settings = s.settings := by
      rw [h4, backfillSettings]
      simp [h5]
    cases s
    simp_all

/-- Witness for C4 (amended): a shot with one variation and no
deprecated url fields is returned unchanged by the legacy migration. -/
theorem claim_C4_migrator_idempotence_amended_witness :
    migrateShotLegacy (fun x => x) "fresh" 0 shotWithVar = shotWithVar :=
  claim_C4_migrator_idempotence_amended.2.2.1 (fun x => x) "fresh" 0 shotWithVar
    (by decide) rfl rfl rfl

/-- Counterexample to C5 as stated: legacy conversion of a concrete
legacy-shape shot retains the deprecated size field
`imagePreviewFileSize` (the claim says every deprecated field, the size
fields included, is removed) and, on the legacy-storage path, performs
no settings backfill (the claim says settings are backfilled on both
paths). -/
theorem claim_C5_counterexample :
    (migrateShotLegacy (fun x => x) "fresh" 0 c5shot).imagePreviewFileSize = some 7 ∧
    (migrateShotLegacy (fun x => x) "fresh" 0 c5shot).imageOriginalFileSize = some 9 ∧
    c5shot.settings = none ∧
    (migrateShotLegacy (fun x => x) "fresh" 0 c5shot).settings = none := by
  refine ⟨rfl, rfl, rfl, rfl⟩

/-- C5 (amended): for a shot with empty `imageVariations` and a
deprecated single-image field present, both migration paths build
exactly one `ImageAsset` (reusing the deprecated preview/size fields
when present, else recomputing via the codec), set it as sole variation
and as selected, and remove the deprecated url fields `imageUrl`,
`imageOriginalUrl`, `imagePreviewUrl` — but RETAIN the deprecated size
fields `imagePreviewFileSize` and `imageOriginalFileSize`; the settings
backfill (defaults when absent, `shotType` when missing) happens only on
the import path, the legacy-storage path leaves `settings` untouched. -/
theorem claim_C5_legacy_conversion_amended :
    ∀ (compress : String → String) freshId now (s : Shot),
      s.imageVariations = [] →
      (jsTruthyStr s.imageOriginalUrl || jsTruthyStr s.imageUrl) = true →
      ∃ a : ImageAsset,
        migrateShotLegacy compress freshId now s =
          { s with imageVariations := [a], selectedVariationId := some a.id,
                   imageUrl := none, imageOriginalUrl := none,
                   imagePreviewUrl := none } ∧
        migrateShotImport compress freshId now s =
          { s with imageVariations := [a], selectedVariationId := some a.id,
                   settings := backfillSettings s.settings,
                   imageUrl := none, imageOriginalUrl := none,
                   imagePreviewUrl := none } ∧
        a.id = freshId ∧
        a.originalUrl = jsOrStr s.imageOriginalUrl (jsOrStr s.imageUrl "") ∧
        a.originalFileSize
          = jsOrQ s.imageOriginalFileSize (calculateBase64Size a.originalUrl) ∧
        a.createdAt = now ∧
        (jsTruthyStr s.imagePreviewUrl = true →
          a.previewUrl = jsOrStr s.imagePreviewUrl "" ∧
          a.previewFileSize = s.imagePreviewFileSize) ∧
        (jsTruthyStr s.imagePreviewUrl = false →
          a.previewUrl = compress a.originalUrl ∧
          a.previewFileSize = some (calculateBase64Size (compress a.originalUrl))) := by
  intro compress freshId now s hempty htruthy
  have hlen : (s.imageVariations.length = 0) = True := by simp [hempty]
  have htruthy2 : (jsTruthyStr s.imageUrl || jsTruthyStr s.imageOriginalUrl) = true := by
    rw [Bool.or_comm]
    exact htruthy
  refine ⟨{ id := freshId
            originalUrl := jsOrStr s.imageOriginalUrl (jsOrStr s.imageUrl "")
            previewUrl :=
              if jsTruthyStr s.imagePreviewUrl then jsOrStr s.imagePreviewUrl ""
              else compress (jsOrStr s.imageOriginalUrl (jsOrStr s.imageUrl ""))
            previewFileSize :=
              if jsTruthyStr s.imagePreviewUrl then s.imagePreviewFileSize
              else some (calculateBase64Size
                (compress (jsOrStr s.imageOriginalUrl (jsOrStr s.imageUrl ""))))
            originalFileSize :=
              jsOrQ s.imageOriginalFileSize
                (calculateBase64Size (jsOrStr s.imageOriginalUrl (jsOrStr s.imageUrl "")))
            createdAt := now }, ?_, ?_, rfl, rfl, rfl, rfl, ?_, ?_⟩
  · rw [migrateShotLegacy]
    simp only [hlen, htruthy, and_true, Bool.and_true, if_true, eq_self_iff_true, true_and]
    by_cases hp : jsTruthyStr s.imagePreviewUrl = true
    · simp [hp]
    · simp only [Bool.not_eq_true] at hp
      simp [hp]
  · rw [migrateShotImport]
    simp only [hlen, htruthy2, and_true, Bool.and_true, if_true, eq_self_iff_true, true_and]
    by_cases hp : jsTruthyStr s.imagePreviewUrl = true
    · simp [hp]
    · simp only [Bool.not_eq_true] at hp
      simp [hp]
  · intro hp
    simp [hp]
  · intro hp
    simp [hp]

/-- Witness for C5 (amended): a concrete legacy-shape shot with
`imageUrl` present and no preview url. -/
theorem claim_C5_legacy_conversion_amended_witness :
    ∃ a : ImageAsset,
      migrateShotLegacy (fun x => x) "fresh" 7 c5shot =
        { c5shot with imageVariations := [a]
                      selectedVariationId := some a.id
                      imageUrl := none
                      imageOriginalUrl := none
                      imagePreviewUrl := none } ∧
      migrateShotImport (fun x => x) "fresh" 7 c5shot =
        { c5shot with imageVariations := [a]
                      selectedVariationId := some a.id
                      settings := backfillSettings c5shot.settings
                      imageUrl := none
                      imageOriginalUrl := none
                      imagePreviewUrl := none } ∧
      a.id = "fresh" ∧
      a.originalUrl = jsOrStr c5shot.imageOriginalUrl (jsOrStr c5shot.imageUrl "") ∧
      a.originalFileSize
        = jsOrQ c5shot.imageOriginalFileSize (calculateBase64Size a.originalUrl) ∧
      a.createdAt = 7 ∧
      (jsTruthyStr c5shot.imagePreviewUrl = true →
        a.previewUrl = jsOrStr c5shot.imagePreviewUrl "" ∧
        a.previewFileSize = c5shot.imagePreviewFileSize) ∧
      (jsTruthyStr c5shot.imagePreviewUrl = false →
        a.previewUrl = (fun x => x) a.originalUrl ∧
        a.previewFileSize
          = some (calculateBase64Size ((fun x => x) a.originalUrl))) :=
  claim_C5_legacy_conversion_amended (fun x => x) "fresh" 7 c5shot rfl (by decide)

/-- Counterexample to C2 as stated: the AI-call-start transformation of
`handleGenerateImage` (marking `isGeneratingImage`) changes the target
project but leaves its `updatedAt` untouched. -/
theorem claim_C2_counterexample :
    setShotGeneratingFlag true "p1" "s1" [sampleProject] ≠ [sampleProject] ∧
    (setShotGeneratingFlag true "p1" "s1" [sampleProject]).map Project.updatedAt
      = [sampleProject.updatedAt] := by
  refine ⟨by decide, by decide⟩

/-- C2 (amended): every content-mutating transformation bumps the target
project's `updatedAt` (variation selection, project info save, prompt
and settings edits, the optimistic description edit, the generate/edit
success updates, add/trash/restore shot when they take effect,
permanent shot deletion, emptying the shot trash, project soft
delete/restore touching only its target) — but the transient AI flag
transitions (marking `isGeneratingImage`/`isUpdatingPrompt` at AI-call
start and clearing them on failure) and the `visualPrompt` patch applied
on regeneration success leave every `updatedAt` unchanged. -/
theorem claim_C2_updatedAt_discipline :
    (∀ shotId variationId now p,
      (selectVariationProject shotId variationId now p).updatedAt = now) ∧
    (∀ title idea now p,
      (saveProjectInfoProject title idea now p).updatedAt = now) ∧
    (∀ shotId prompt now p,
      (updateVisualPromptProject shotId prompt now p).updatedAt = now) ∧
    (∀ shotId ns now p,
      (updateShotSettingsProject shotId ns now p).updatedAt = now) ∧
    (∀ shotId desc now p,
      (descriptionEditProject shotId desc now p).updatedAt = now) ∧
    (∀ shotId newVars now p,
      (generateSuccessProject shotId newVars now p).updatedAt = now) ∧
    (∀ shotId v now p,
      (editSuccessProject shotId v now p).updatedAt = now) ∧
    (∀ prevId freshId now (p : Project),
      (p.shots.findIdx? (fun s => s.id = prevId)).isSome →
      (addShotAfterProject prevId freshId now p).updatedAt = now) ∧
    (∀ shotId now (p : Project),
      (p.shots.find? (fun s => s.id = shotId)).isSome →
      (trashShotProject shotId now p).updatedAt = now) ∧
    (∀ shotId now (p : Project),
      ((p.trashedShots.getD []).find? (fun s => s.id = shotId)).isSome →
      (restoreShotProject shotId now p).updatedAt = now) ∧
    (∀ shotId now p, (permDeleteShotProject shotId now p).updatedAt = now) ∧
    (∀ now p, (emptyShotTrashProject now p).updatedAt = now) ∧
    (∀ id now ps p', p' ∈ softDeleteProject id now ps →
      p' ∈ ps ∨ p'.updatedAt = now) ∧
    (∀ id now ps p', p' ∈ restoreProject id now ps →
      p' ∈ ps ∨ p'.updatedAt = now) ∧
    (∀ flag pid shotId ps,
      (setShotGeneratingFlag flag pid shotId ps).map Project.updatedAt
        = ps.map Project.updatedAt) ∧
    (∀ pid shotId prompt ps,
      (applyPromptPatch pid shotId prompt ps).map Project.updatedAt
        = ps.map Project.updatedAt) ∧
    (∀ pid shotId ps,
      (applyClearUpdatingPrompt pid shotId ps).map Project.updatedAt
        = ps.map Project.updatedAt) := by
  refine ⟨fun a b c p => rfl, fun a b c p => rfl, fun a b c p => rfl,
          fun a b c p => rfl, fun a b c p => rfl, fun a b c p => rfl,
          fun a b c p => rfl, ?_, ?_, ?_, fun a b p => rfl, fun a p => rfl,
          ?_, ?_, ?_, ?_, ?_⟩
  · intro prevId freshId now p h
    rw [addShotAfterProject]
    obtain ⟨idx, hidx⟩ := Option.isSome_iff_exists.mp h
    rw [hidx]
  · intro shotId now p h
    rw [trashShotProject]
    obtain ⟨sh, hsh⟩ := Option.isSome_iff_exists.mp h
    rw [hsh]
  · intro shotId now p h
    rw [restoreShotProject]
    obtain ⟨sh, hsh⟩ := Option.isSome_iff_exists.mp h
    rw [hsh]
  · intro id now ps p' h
    rw [softDeleteProject] at h
    obtain ⟨q, hq, hfq⟩ := List.mem_map.mp h
    by_cases hid : q.id = id
    · right
      rw [← hfq]
      simp [hid]
    · left
      rw [← hfq]
      simpa [hid] using hq
  · intro id now ps p' h
    rw [restoreProject] at h
    obtain ⟨q, hq, hfq⟩ := List.mem_map.mp h
    by_cases hid : q.id = id
    · right
      rw [← hfq]
      simp [hid]
    · left
      rw [← hfq]
      simpa [hid] using hq
  · intro flag pid shotId ps
    rw [setShotGeneratingFlag, List.map_map]
    apply List.map_congr_left
    intro p hp
    by_cases h : p.id = pid <;> simp [h, setGeneratingProject]
  · intro pid shotId prompt ps
    rw [applyPromptPatch, List.map_map]
    apply List.map_congr_left
    intro p hp
    by_cases h : p.id = pid <;> simp [h, promptPatchProject]
  · intro pid shotId ps
    rw [applyClearUpdatingPrompt, List.map_map]
    apply List.map_congr_left
    intro p hp
    by_cases h : p.id = pid <;> simp [h, clearUpdatingPromptProject]

/-- Witness for C2 (amended): a concrete trash-shot run bumps the
timestamp. -/
theorem claim_C2_updatedAt_discipline_witness :
    (trashShotProject "s1" 9 sampleProject).updatedAt = 9 :=
  claim_C2_updatedAt_discipline.2.2.2.2.2.2.2.2.1 "s1" 9 sampleProject (by decide)

/-- Counterexample to C7 as stated: with the rate-limit cooldown counter
at 60 (busy flag clear, throttle zero), `handleGenerateImage` still
issues its two collaborator calls and changes state — the cooldown does
not make the handler a no-op. -/
theorem claim_C7_counterexample :
    cooldownState.rateLimitCooldown > 0 ∧
    (handleGenerateImage cooldownState "s1" none none (some "IMG") none
        "v1" "v2" (fun x => x) 7).2 ≠ [] := by
  refine ⟨by decide, by decide⟩

/-- C7 (amended): every AI-triggering handler is a strict no-op (state
unchanged, no collaborator call) when the busy flag is set or the
proactive throttle counter is above zero — the rate-limit cooldown is
not part of the handler guards (it only disables UI controls) — and
every admitted run, success or failure, re-arms the fixed 3-second
throttle, whose positivity in turn blocks every further AI-triggering
handler until it elapses. -/
theorem claim_C7_gating_amended :
    (∀ st outcome shotIdAt projectId now,
      (st.isApiBusy = true ∨ 0 < st.apiThrottle) →
      handleCreateProject st outcome shotIdAt projectId now = (st, [])) ∧
    (∀ st shotId rsid cref res1 res2 id1 id2 compress now,
      (st.isApiBusy = true ∨ 0 < st.apiThrottle) →
      handleGenerateImage st shotId rsid cref res1 res2 id1 id2 compress now
        = (st, [])) ∧
    (∀ st shotId instr outcome freshId compress now,
      (st.isApiBusy = true ∨ 0 < st.apiThrottle) →
      handleEditShotImage st shotId instr outcome freshId compress now = (st, [])) ∧
    (∀ st shotId desc outcome now,
      (st.isApiBusy = true ∨ 0 < st.apiThrottle) →
      handleUpdateShotDescription st shotId desc outcome now = (st, [])) ∧
    (∀ st pidea desc outcome,
      (st.isApiBusy = true ∨ 0 < st.apiThrottle) →
      handleGetSuggestionsForShot st pidea desc outcome = (st, [])) ∧
    (∀ st outcome shotIdAt projectId now,
      st.ideaInput.trim ≠ "" → st.isApiBusy = false → st.apiThrottle = 0 →
      (handleCreateProject st outcome shotIdAt projectId now).1.apiThrottle = 3) ∧
    (∀ st shotId rsid cref res1 res2 id1 id2 compress now pid project shot,
      st.selectedProjectId = some pid →
      st.isApiBusy = false → st.apiThrottle = 0 →
      st.projects.find? (fun p => p.id = pid) = some project →
      project.shots.find? (fun s => s.id = shotId) = some shot →
      (handleGenerateImage st shotId rsid cref res1 res2 id1 id2 compress
          now).1.apiThrottle = 3) ∧
    (∀ st shotId instr outcome freshId compress now pid project shot currentVar,
      st.selectedProjectId = some pid →
      st.isApiBusy = false → st.apiThrottle = 0 →
      st.projects.find? (fun p => p.id = pid) = some project →
      project.shots.find? (fun s => s.id = shotId) = some shot →
      jsTruthyStr shot.selectedVariationId = true →
      shot.imageVariations.find?
          (fun v => v.id = shot.selectedVariationId.getD "") = some currentVar →
      (handleEditShotImage st shotId instr outcome freshId compress
          now).1.apiThrottle = 3) ∧
    (∀ st shotId desc outcome now pid,
      st.selectedProjectId = some pid →
      st.isApiBusy = false → st.apiThrottle = 0 →
      (handleUpdateShotDescription st shotId desc outcome now).1.apiThrottle = 3) ∧
    (∀ st pidea desc outcome,
      st.isApiBusy = false → st.apiThrottle = 0 →
      (handleGetSuggestionsForShot st pidea desc outcome).1.apiThrottle = 3) := by
  refine ⟨?_, ?_, ?_, ?_, ?_, ?_, ?_, ?_, ?_, ?_⟩
  · intro st outcome shotIdAt projectId now hb
    rcases hb with h | h <;> simp [handleCreateProject, h]
  · intro st shotId rsid cref res1 res2 id1 id2 compress now hb
    rcases hsel : st.selectedProjectId with _ | pid
    · simp [handleGenerateImage, hsel]
    · rcases hb with h | h <;> simp [handleGenerateImage, hsel, h]
  · intro st shotId instr outcome freshId compress now hb
    rcases hsel : st.selectedProjectId with _ | pid
    · simp [handleEditShotImage, hsel]
    · rcases hb with h | h <;> simp [handleEditShotImage, hsel, h]
  · intro st shotId desc outcome now hb
    rcases hsel : st.selectedProjectId with _ | pid
    · simp [handleUpdateShotDescription, hsel]
    · rcases hb with h | h <;> simp [handleUpdateShotDescription, hsel, h]
  · intro st pidea desc outcome hb
    rcases hb with h | h <;> simp [handleGetSuggestionsForShot, h]
  · intro st outcome shotIdAt projectId now ht hb h0
    rcases outcome with msg | shotsData <;>
      simp [handleCreateProject, ht, hb, h0]
  · intro st shotId rsid cref res1 res2 id1 id2 compress now pid project shot
      hsel hb h0 hfp hfs
    rcases res1 with _ | img1 <;> rcases res2 with _ | img2 <;>
      simp [handleGenerateImage, hsel, hb, h0, hfp, hfs]
  · intro st shotId instr outcome freshId compress now pid project shot currentVar
      hsel hb h0 hfp hfs hjs hfv
    rcases outcome with msg | img <;>
      simp [handleEditShotImage, hsel, hb, h0, hfp, hfs, hjs, hfv]
  · intro st shotId desc outcome now pid hsel hb h0
    rcases outcome with msg | prompt <;>
      simp [handleUpdateShotDescription, hsel, hb, h0]
  · intro st pidea desc outcome hb h0
    rcases outcome with msg | sugg <;>
      simp [handleGetSuggestionsForShot, hb, h0]

/-- Witness for C7 (amended): a concrete admitted suggestions call that
fails still arms the 3-second throttle. -/
theorem claim_C7_gating_amended_witness :
    (handleGetSuggestionsForShot sampleState "i" "d"
        (Except.error "boom")).1.apiThrottle = 3 :=
  claim_C7_gating_amended.2.2.2.2.2.2.2.2.2 sampleState "i" "d"
    (Except.error "boom") rfl rfl

/-- `find?` over a map by a key-preserving function, at a found key. -/
theorem find?_map_found {α : Type} (key : α → String) (g : α → α)
    (hg : ∀ a, key (g a) = key a) (l : List α) (k : String) (a : α)
    (hfa : l.find? (fun x => key x = k) = some a) :
    (l.map g).find? (fun x => key x = k) = some (g a) := by
  rw [find?_map_key g key hg l k, hfa]
  rfl

/-- The fixed both-attempts-failed message classifies as an "other"
failure: it is surfaced via `globalError`. -/
theorem applyApiError_generateFail (st : AppState) :
    applyApiError st generateFailMessage
      = { st with globalError := some generateFailMessage } := by
  have h1 : upperIncludes generateFailMessage "429" = false := by decide
  have h2 : upperIncludes generateFailMessage "RESOURCE_EXHAUSTED" = false := by decide
  have h3 : upperIncludes generateFailMessage "RATE LIMIT" = false := by decide
  have h4 : upperIncludes generateFailMessage "PERMISSION_DENIED" = false := by decide
  have h5 : upperIncludes generateFailMessage "API_KEY" = false := by decide
  have h6 : upperIncludes generateFailMessage "403" = false := by decide
  simp [applyApiError, h1, h2, h3, h4, h5, h6]

/-- Locating the designated shot after the flag has been marked and
cleared again (the total-failure path of image generation/editing). -/
theorem setFlag_twice_find (ps : List Project) (pid shotId : String)
    (project : Project) (shot : Shot)
    (hfp : ps.find? (fun p => p.id = pid) = some project)
    (hfs : project.shots.find? (fun s => s.id = shotId) = some shot) :
    ∃ p',
      (setShotGeneratingFlag false pid shotId
          (setShotGeneratingFlag true pid shotId ps)).find?
        (fun p => p.id = pid) = some p' ∧
      p'.shots.find? (fun s => s.id = shotId)
        = some { shot with isGeneratingImage := false } := by
  have hp : project.id = pid := by simpa using List.find?_some hfp
  have hs : shot.id = shotId := by simpa using List.find?_some hfs
  simp only [setShotGeneratingFlag]
  have hidP : ∀ flag (q : Project),
      ((fun p => if p.id ≠ pid then p else setGeneratingProject flag shotId p) q).id
        = q.id := by
    intro flag q
    by_cases h : q.id ≠ pid <;> simp [h, setGeneratingProject]
  have h1 := find?_map_found Project.id _ (hidP true) ps pid project hfp
  have h2 := find?_map_found Project.id _ (hidP false) _ pid _ h1
  refine ⟨_, h2, ?_⟩
  simp only [hp, ne_eq, not_true_eq_false, if_false, setGeneratingProject]
  have hidS : ∀ flag (t : Shot),
      ((fun s => if s.id = shotId then { s with isGeneratingImage := flag } else s) t).id
        = t.id := by
    intro flag t
    by_cases h : t.id = shotId <;> simp [h]
  have g1 := find?_map_found Shot.id _ (hidS true) project.shots shotId shot hfs
  have g2 := find?_map_found Shot.id _ (hidS false) _ shotId _ g1
  rw [g2]
  simp [hs]

/-- Locating the designated shot after the flag has been marked and the
generation-success update applied. -/
theorem setFlag_then_generateSuccess_find (ps : List Project)
    (pid shotId : String) (newVars : List ImageAsset) (now : ℕ)
    (project : Project) (shot : Shot)
    (hfp : ps.find? (fun p => p.id = pid) = some project)
    (hfs : project.shots.find? (fun s => s.id = shotId) = some shot) :
    ∃ p',
      (applyGenerateSuccess pid shotId newVars now
          (setShotGeneratingFlag true pid shotId ps)).find?
        (fun p => p.id = pid) = some p' ∧
      p'.shots.find? (fun s => s.id = shotId)
        = some { shot with
                   imageVariations := newVars ++ shot.imageVariations
                   selectedVariationId := newVars.head?.map ImageAsset.id
                   isGeneratingImage := false } := by
  have hp : project.id = pid := by simpa using List.find?_some hfp
  have hs : shot.id = shotId := by simpa using List.find?_some hfs
  simp only [setShotGeneratingFlag, applyGenerateSuccess]
  have hidP1 : ∀ (q : Project),
      ((fun p => if p.id ≠ pid then p else setGeneratingProject true shotId p) q).id
        = q.id := by
    intro q
    by_cases h : q.id ≠ pid <;> simp [h, setGeneratingProject]
  have hidP2 : ∀ (q : Project),
      ((fun p => if p.id ≠ pid then p
                 else generateSuccessProject shotId newVars now p) q).id = q.id := by
    intro q
    by_cases h : q.id ≠ pid <;> simp [h, generateSuccessProject]
  have h1 := find?_map_found Project.id _ hidP1 ps pid project hfp
  have h2 := find?_map_found Project.id _ hidP2 _ pid _ h1
  refine ⟨_, h2, ?_⟩
  simp only [hp, ne_eq, not_true_eq_false, if_false, setGeneratingProject,
    generateSuccessProject]
  have hidS1 : ∀ (t : Shot),
      ((fun s => if s.id = shotId then { s with isGeneratingImage := true } else s) t).id
        = t.id := by
    intro t
    by_cases h : t.id = shotId <;> simp [h]
  have hidS2 : ∀ (t : Shot),
      ((fun s => if s.id ≠ shotId then s
                 else { s with imageVariations := newVars ++ s.imageVariations
                               selectedVariationId := newVars.head?.map ImageAsset.id
                               isGeneratingImage := false }) t).id = t.id := by
    intro t
    by_cases h : t.id ≠ shotId <;> simp [h]
  have g1 := find?_map_found Shot.id _ hidS1 project.shots shotId shot hfs
  have g2 := find?_map_found Shot.id _ hidS2 _ shotId _ g1
  rw [g2]
  simp [hs]

/-- C6: when both concurrent generation attempts fail, the designated
shot's `imageVariations` is unchanged, its `isGeneratingImage` is false
afterwards, and the fixed failure message is surfaced in `globalError`;
when exactly one attempt succeeds (either one), exactly one new
variation is prepended to its `imageVariations` and becomes the selected
one, with the flag cleared. -/
theorem claim_C6_generate_outcome :
    ∀ (st : AppState) shotId rsid cref id1 id2
      (compress : String → String) (now : ℕ) pid project shot,
      st.selectedProjectId = some pid →
      st.isApiBusy = false → st.apiThrottle = 0 →
      st.projects.find? (fun p => p.id = pid) = some project →
      project.shots.find? (fun s => s.id = shotId) = some shot →
      (((handleGenerateImage st shotId rsid cref none none id1 id2 compress
            now).1.globalError = some generateFailMessage) ∧
        (∃ p' s',
          (handleGenerateImage st shotId rsid cref none none id1 id2 compress
              now).1.projects.find? (fun p => p.id = pid) = some p' ∧
          p'.shots.find? (fun s => s.id = shotId) = some s' ∧
          s'.imageVariations = shot.imageVariations ∧
          s'.isGeneratingImage = false)) ∧
      (∀ img, ∃ p' s',
        (handleGenerateImage st shotId rsid cref (some img) none id1 id2 compress
            now).1.projects.find? (fun p => p.id = pid) = some p' ∧
        p'.shots.find? (fun s => s.id = shotId) = some s' ∧
        s'.imageVariations
          = processAndSaveImage compress id1 now img :: shot.imageVariations ∧
        s'.selectedVariationId = some (processAndSaveImage compress id1 now img).id ∧
        s'.isGeneratingImage = false) ∧
      (∀ img, ∃ p' s',
        (handleGenerateImage st shotId rsid cref none (some img) id1 id2 compress
            now).1.projects.find? (fun p => p.id = pid) = some p' ∧
        p'.shots.find? (fun s => s.id = shotId) = some s' ∧
        s'.imageVariations
          = processAndSaveImage compress id1 now img :: shot.imageVariations ∧
        s'.selectedVariationId = some (processAndSaveImage compress id1 now img).id ∧
        s'.isGeneratingImage = false) := by
  intro st shotId rsid cref id1 id2 compress now pid project shot
    hsel hb h0 hfp hfs
  refine ⟨⟨?_, ?_⟩, ?_, ?_⟩
  · simp [handleGenerateImage, hsel, hb, h0, hfp, hfs, applyApiError_generateFail]
  · obtain ⟨p', hp', hs'⟩ := setFlag_twice_find st.projects pid shotId project shot hfp hfs
    refine ⟨p', { shot with isGeneratingImage := false }, ?_, hs', rfl, rfl⟩
    simp only [handleGenerateImage, hsel, hb, h0, hfp, hfs,
      Option.toList_none, List.nil_append, applyApiError_generateFail]
    simpa using hp'
  · intro img
    obtain ⟨p', hp', hs'⟩ := setFlag_then_generateSuccess_find st.projects pid shotId
      [processAndSaveImage compress id1 now img] now project shot hfp hfs
    refine ⟨p', _, ?_, hs', by simp, by simp, rfl⟩
    simp only [handleGenerateImage, hsel, hb, h0, hfp, hfs,
      Option.toList_some, Option.toList_none, List.append_nil, List.cons_append,
      List.nil_append, List.zip_cons_cons, List.zip_nil_left, List.map_cons,
      List.map_nil]
    simpa using hp'
  · intro img
    obtain ⟨p', hp', hs'⟩ := setFlag_then_generateSuccess_find st.projects pid shotId
      [processAndSaveImage compress id1 now img] now project shot hfp hfs
    refine ⟨p', _, ?_, hs', by simp, by simp, rfl⟩
    simp only [handleGenerateImage, hsel, hb, h0, hfp, hfs,
      Option.toList_some, Option.toList_none, List.append_nil, List.cons_append,
      List.nil_append, List.zip_cons_cons, List.zip_nil_left, List.map_cons,
      List.map_nil]
    simpa using hp'

/-- Witness for C6: a concrete state where both attempts fail surfaces
the fixed failure message. -/
theorem claim_C6_generate_outcome_witness :
    (handleGenerateImage sampleState "s1" none none none none "v1" "v2"
        (fun x => x) 7).1.globalError = some generateFailMessage :=
  (claim_C6_generate_outcome sampleState "s1" none none "v1" "v2" (fun x => x) 7
    "p1" sampleProject emptyShot rfl rfl rfl (by decide) (by decide)).1.1

/-- Either the legacy migration keeps variations and selection
untouched, or it installs a single fresh variation and selects it. -/
theorem migrateShotLegacy_shape (compress : String → String)
    (freshId : String) (now : ℕ) (s : Shot) :
    ((migrateShotLegacy compress freshId now s).selectedVariationId
        = s.selectedVariationId ∧
      (migrateShotLegacy compress freshId now s).imageVariations
        = s.imageVariations) ∨
    ((migrateShotLegacy compress freshId now s).selectedVariationId
        = some freshId ∧
      ∃ a, (migrateShotLegacy compress freshId now s).imageVariations = [a] ∧
        a.id = freshId) := by
  rw [migrateShotLegacy]
  split_ifs with h <;>
    first
      | exact Or.inl ⟨rfl, rfl⟩
      | exact Or.inr ⟨rfl, _, rfl, rfl⟩

/-- Either the import migration keeps variations and selection
untouched, or it installs a single fresh variation and selects it. -/
theorem migrateShotImport_shape (compress : String → String)
    (freshId : String) (now : ℕ) (s : Shot) :
    ((migrateShotImport compress freshId now s).selectedVariationId
        = s.selectedVariationId ∧
      (migrateShotImport compress freshId now s).imageVariations
        = s.imageVariations) ∨
    ((migrateShotImport compress freshId now s).selectedVariationId
        = some freshId ∧
      ∃ a, (migrateShotImport compress freshId now s).imageVariations = [a] ∧
        a.id = freshId) := by
  rw [migrateShotImport]
  split_ifs with h <;>
    first
      | exact Or.inl ⟨rfl, rfl⟩
      | exact Or.inr ⟨rfl, _, rfl, rfl⟩

/-- The legacy migration preserves the selected-variation invariant. -/
theorem migrateShotLegacy_selInv (compress : String → String)
    (freshId : String) (now : ℕ) (s : Shot) (h : selInvShot s) :
    selInvShot (migrateShotLegacy compress freshId now s) := by
  rcases migrateShotLegacy_shape compress freshId now s with
    ⟨hsel, hvar⟩ | ⟨hsel, a, hvar, hid⟩
  · intro vid hvid
    rw [hsel] at hvid
    obtain ⟨v, hv, hvid2⟩ := h vid hvid
    exact ⟨v, by rw [hvar]; exact hv, hvid2⟩
  · intro vid hvid
    rw [hsel] at hvid
    simp only [Option.some.injEq] at hvid
    subst hvid
    exact ⟨a, by simp [hvar], hid⟩

/-- The import migration preserves the selected-variation invariant. -/
theorem migrateShotImport_selInv (compress : String → String)
    (freshId : String) (now : ℕ) (s : Shot) (h : selInvShot s) :
    selInvShot (migrateShotImport compress freshId now s) := by
  rcases migrateShotImport_shape compress freshId now s with
    ⟨hsel, hvar⟩ | ⟨hsel, a, hvar, hid⟩
  · intro vid hvid
    rw [hsel] at hvid
    obtain ⟨v, hv, hvid2⟩ := h vid hvid
    exact ⟨v, by rw [hvar]; exact hv, hvid2⟩
  · intro vid hvid
    rw [hsel] at hvid
    simp only [Option.some.injEq] at hvid
    subst hvid
    exact ⟨a, by simp [hvar], hid⟩

/-- A pair drawn from `enum` carries a member of the underlying list. -/
theorem mem_of_mem_enum {α : Type} {l : List α} {q : ℕ × α}
    (h : q ∈ l.enum) : q.2 ∈ l := by
  obtain ⟨i, x⟩ := q
  have h2 := List.mem_enumFrom (show (i, x) ∈ List.enumFrom 0 l from h)
  simp only [Nat.sub_zero] at h2
  obtain ⟨-, hlt, hx⟩ := h2
  rw [hx]
  exact List.getElem_mem _

/-- C8: each of the public operations — select variation, generate-image
flag and success updates, edit-image success update, both shot
migrations, and import — preserves the invariant that a set
`selectedVariationId` references a member of `imageVariations` (for
select-variation, under the caller's guarantee that the chosen id is one
of the target shot's variation ids, which is how the UI invokes it). -/
theorem claim_C8_selected_variation_invariant :
    (∀ pid shotId variationId now (ps : List Project),
      (∀ p ∈ ps, p.id = pid → ∀ s ∈ p.shots, s.id = shotId →
        ∃ v ∈ s.imageVariations, v.id = variationId) →
      selInvProjects ps →
      selInvProjects (handleSelectVariation pid shotId variationId now ps)) ∧
    (∀ flag pid shotId (ps : List Project),
      selInvProjects ps →
      selInvProjects (setShotGeneratingFlag flag pid shotId ps)) ∧
    (∀ pid shotId newVars now (ps : List Project),
      selInvProjects ps →
      selInvProjects (applyGenerateSuccess pid shotId newVars now ps)) ∧
    (∀ pid shotId v now (ps : List Project),
      selInvProjects ps →
      selInvProjects (applyEditSuccess pid shotId v now ps)) ∧
    (∀ (compress : String → String) freshId now (s : Shot),
      selInvShot s → selInvShot (migrateShotLegacy compress freshId now s)) ∧
    (∀ (compress : String → String) freshId now (s : Shot),
      selInvShot s → selInvShot (migrateShotImport compress freshId now s)) ∧
    (∀ (st : AppState) file freshProjectId shotIdAt
        (compress : String → String) now,
      (∀ s ∈ file.shots.getD [], selInvShot s) →
      selInvProjects st.projects →
      selInvProjects
        (handleImportJson st file freshProjectId shotIdAt compress now).projects) := by
  refine ⟨?_, ?_, ?_, ?_,
          fun c f n s h => migrateShotLegacy_selInv c f n s h,
          fun c f n s h => migrateShotImport_selInv c f n s h, ?_⟩
  · intro pid shotId variationId now ps hmem hinv p' hp' s' hs'
    rw [handleSelectVariation] at hp'
    obtain ⟨p, hp, rfl⟩ := List.mem_map.mp hp'
    by_cases hid : p.id ≠ pid
    · rw [if_pos hid] at hs'
      exact hinv p hp s' hs'
    · rw [if_neg hid, selectVariationProject] at hs'
      simp only [] at hs'
      obtain ⟨s, hs, rfl⟩ := List.mem_map.mp hs'
      by_cases hsid : s.id = shotId
      · rw [if_pos hsid]
        intro vid hvid
        simp only [Option.some.injEq] at hvid
        subst hvid
        exact hmem p hp (by simpa using hid) s hs hsid
      · rw [if_neg hsid]
        exact hinv p hp s hs
  · intro flag pid shotId ps hinv p' hp' s' hs'
    rw [setShotGeneratingFlag] at hp'
    obtain ⟨p, hp, rfl⟩ := List.mem_map.mp hp'
    by_cases hid : p.id ≠ pid
    · rw [if_pos hid] at hs'
      exact hinv p hp s' hs'
    · rw [if_neg hid, setGeneratingProject] at hs'
      simp only [] at hs'
      obtain ⟨s, hs, rfl⟩ := List.mem_map.mp hs'
      by_cases hsid : s.id = shotId
      · rw [if_pos hsid]
        intro vid hvid
        exact hinv p hp s hs vid hvid
      · rw [if_neg hsid]
        exact hinv p hp s hs
  · intro pid shotId newVars now ps hinv p' hp' s' hs'
    rw [applyGenerateSuccess] at hp'
    obtain ⟨p, hp, rfl⟩ := List.mem_map.mp hp'
    by_cases hid : p.id ≠ pid
    · rw [if_pos hid] at hs'
      exact hinv p hp s' hs'
    · rw [if_neg hid, generateSuccessProject] at hs'
      simp only [] at hs'
      obtain ⟨s, hs, rfl⟩ := List.mem_map.mp hs'
      by_cases hsid : s.id ≠ shotId
      · rw [if_pos hsid]
        exact hinv p hp s hs
      · rw [if_neg hsid]
        intro vid hvid
        cases newVars with
        | nil => simp at hvid
        | cons a t =>
          simp only [List.head?_cons] at hvid
          simp only [Option.map_some'] at hvid
          simp only [Option.some.injEq] at hvid
          exact ⟨a, by simp, hvid⟩
  · intro pid shotId v now ps hinv p' hp' s' hs'
    rw [applyEditSuccess] at hp'
    obtain ⟨p, hp, rfl⟩ := List.mem_map.mp hp'
    by_cases hid : p.id ≠ pid
    · rw [if_pos hid] at hs'
      exact hinv p hp s' hs'
    · rw [if_neg hid, editSuccessProject] at hs'
      simp only [] at hs'
      obtain ⟨s, hs, rfl⟩ := List.mem_map.mp hs'
      by_cases hsid : s.id ≠ shotId
      · rw [if_pos hsid]
        exact hinv p hp s hs
      · rw [if_neg hsid]
        intro vid hvid
        simp only [Option.some.injEq] at hvid
        subst hvid
        exact ⟨v, by simp, rfl⟩
  · intro st file freshProjectId shotIdAt compress now hshots hinv
    rw [handleImportJson]
    split_ifs with hval
    · exact hinv
    · intro p' hp' s' hs'
      rcases List.mem_cons.mp hp' with rfl | hp2
      · simp only [] at hs'
        obtain ⟨q, hq, rfl⟩ := List.mem_map.mp hs'
        exact migrateShotImport_selInv compress (shotIdAt q.1) now q.2
          (hshots q.2 (mem_of_mem_enum hq))
      · exact hinv p' hp2 s' hs'

/-- Witness for C8: selecting the variation "v1" of a concrete shot that
owns it keeps the invariant. -/
theorem claim_C8_selected_variation_invariant_witness :
    selInvProjects (handleSelectVariation "p1" "s1" "v1" 9 [projectWithVar]) :=
  claim_C8_selected_variation_invariant.1 "p1" "s1" "v1" 9 [projectWithVar]
    (by decide)
    (by
      intro p hp s hs
      rw [List.mem_singleton] at hp
      subst hp
      rw [show projectWithVar.shots = [shotWithVar] from rfl,
        List.mem_singleton] at hs
      subst hs
      intro vid hvid
      exact Option.noConfusion hvid)

/-- C9: an import whose file lacks a (truthy) id or lacks a shots
sequence only surfaces the validation error, leaving the project
collection untouched; a valid import prepends exactly one project that
carries the fresh id (hence no collision with any existing id the fresh
id avoids), the "(Imported)" title marker, and the per-shot import
migration of every shot — under which a legacy-shape shot (empty
variations, deprecated single-image field present) yields exactly one
variation. -/
theorem claim_C9_import_validation :
    (∀ (st : AppState) file freshProjectId shotIdAt
        (compress : String → String) now,
      (jsTruthyStr file.id = false ∨ file.shots = none) →
      handleImportJson st file freshProjectId shotIdAt compress now
        = { st with globalError := some importFailMessage }) ∧
    (∀ (st : AppState) file freshProjectId shotIdAt
        (compress : String → String) now (shots : List Shot),
      jsTruthyStr file.id = true → file.shots = some shots →
      ∃ np : Project,
        (handleImportJson st file freshProjectId shotIdAt compress
            now).projects = np :: st.projects ∧
        np.id = freshProjectId ∧
        (freshProjectId ∉ st.projects.map Project.id →
          np.id ∉ st.projects.map Project.id) ∧
        np.title = file.title ++ " (Imported)" ∧
        np.shots = shots.enum.map
          (fun q => migrateShotImport compress (shotIdAt q.1) now q.2)) ∧
    (∀ (compress : String → String) freshId now (s : Shot),
      s.imageVariations = [] →
      (jsTruthyStr s.imageUrl || jsTruthyStr s.imageOriginalUrl) = true →
      (migrateShotImport compress freshId now s).imageVariations.length = 1) := by
  refine ⟨?_, ?_, ?_⟩
  · intro st file freshProjectId shotIdAt compress now hbad
    rw [handleImportJson]
    split_ifs with hc
    · rfl
    · exfalso
      rcases hbad with h | h
      · simp [h] at hc
      · simp [h] at hc
  · intro st file freshProjectId shotIdAt compress now shots hid hshots
    rw [handleImportJson]
    split_ifs with hc
    · exfalso
      simp [hid, hshots] at hc
    · refine ⟨_, rfl, rfl, fun h => h, rfl, ?_⟩
      simp [hshots]
  · intro compress freshId now s hempty htruthy
    rw [migrateShotImport]
    split_ifs <;> first | rfl | (exfalso; simp_all)

/-- Witness for C9: importing a concrete legacy-shape backup file. -/
theorem claim_C9_import_validation_witness :
    ∃ np : Project,
      (handleImportJson sampleState sampleImportFile "fresh-p" (fun _ => "fresh-s")
          (fun x => x) 7).projects = np :: sampleState.projects ∧
      np.id = "fresh-p" ∧
      ("fresh-p" ∉ sampleState.projects.map Project.id →
        np.id ∉ sampleState.projects.map Project.id) ∧
      np.title = sampleImportFile.title ++ " (Imported)" ∧
      np.shots = [c5shot].enum.map
        (fun q => migrateShotImport (fun x => x) ((fun _ => "fresh-s") q.1) 7 q.2) :=
  claim_C9_import_validation.2.1 sampleState sampleImportFile "fresh-p"
    (fun _ => "fresh-s") (fun x => x) 7 [c5shot] (by decide) rfl
